import Mathlib

/-!
Verification development for the sharealyzer repository.

The repository turns a stream of fleet snapshots of rentable scooters into a
stream of finalized trips.  The core algorithmic pieces modelled here are:

* the map of scooters keyed by identifier and its set difference
  (file circ/file.go, NewScooters and Scooters.Difference, and the identical
  generic versions in the cripper package),
* the trip lifecycle tracker (TripAggregator.Aggregate): the generic tracker
  of the cripper package, which updates its lastScooters field after every
  snapshot, and the circ-specific tracker of circ/file.go, which does not,
* the trip classifier (ClassifyTrip),
* the per-trip cost computation
  uint64(InitPrice + Price * int(Duration.Minutes())),
* the retry loop of the live source (Scraper.doScrape in circ/file.go).

Modelling conventions: Go maps become association lists of string/value
pairs whose lookup takes the first binding; Go int and int64 become Int
(with an explicit reduction modulo 2 to the 64th power where the code
converts to uint64); time.Time and time.Duration become Int nanoseconds;
float64 fields (charge levels, coordinates, distances) become exact
rationals; the external haversine distance library is an opaque function
parameter of the tracker.  Channels become lists processed in order.
-/

/-! ## Association-list model of Go maps keyed by strings -/

/-- Lookup of a key in an association list: the first binding wins.
This is the semantics of reading a Go map, where at most one binding per
key ever exists. -/
def lookupKey {α : Type} : List (String × α) → String → Option α
  | [], _ => none
  | p :: rest, k => if p.1 = k then some p.2 else lookupKey rest k

/-- Removal of every binding of a key, used to implement overwriting
insertion. -/
def eraseKey {α : Type} (m : List (String × α)) (k : String) : List (String × α) :=
  m.filter (fun p => p.1 ≠ k)

/-- Insertion into a Go map: the new binding replaces any previous binding
of the same key. -/
def insertKey {α : Type} (m : List (String × α)) (k : String) (v : α) : List (String × α) :=
  (k, v) :: eraseKey m k

/-- The list of keys of a map. -/
def keyList {α : Type} (m : List (String × α)) : List String := m.map Prod.fst

/-- Embedding of Scooters.Difference (circ/file.go lines 320 to 329, and the
identical generic version): s.Difference(ns) iterates over ns and keeps the
entries whose identifier does not occur in s.  Called as
current.Difference(previous), it returns the vanished scooters. -/
def differenceKey {α : Type} (s ns : List (String × α)) : List (String × α) :=
  ns.filter (fun p => (lookupKey s p.1).isNone)

/-! ## Data model (types.go of package sharealyzer, historically cripper) -/

/-- GeoLocation of types.go: latitude and longitude, float64 modelled as
exact rationals. -/
structure GeoLocation where
  latitude : ℚ := 0
  longitude : ℚ := 0
deriving DecidableEq, Repr

/-- Scooter of types.go (the generic scooter).  Fields the tracker never
reads (Provider, State, LastUpdate, QRContent) are carried for completeness;
time.Time is Int nanoseconds.  Defaults are the Go zero values. -/
structure Scooter where
  id : String := ""
  provider : String := ""
  state : String := ""
  location : GeoLocation := {}
  chargeLevel : ℚ := 0
  lastUpdate : Int := 0
  qrContent : String := ""
  stateUpdatedByUserID : String := ""
  initPrice : Int := 0
  unitPrice : Int := 0
deriving DecidableEq, Repr

/-- The TripType constants of types.go are strings. -/
def CUSTOMER_TRIP : String := "CUSTOMER_TRIP"

/-- TripType constant CHARGING_TRIP of types.go. -/
def CHARGING_TRIP : String := "CHARGING_TRIP"

/-- TripType constant RELOCATION_TRIP of types.go. -/
def RELOCATION_TRIP : String := "RELOCATION_TRIP"

/-- Trip of types.go.  Duration is Int nanoseconds, Cost is a natural number
(Go uint64, euro cents), times are Int nanoseconds, Distance is km as an
exact rational, Type is a string with Go zero value the empty string.
Defaults are the Go zero values, so constructing a Trip with only some
fields set models the Go composite literal. -/
structure Trip where
  id : String := ""
  scooterID : String := ""
  scooterProvider : String := ""
  startChargeLevel : ℚ := 0
  endChargeLevel : ℚ := 0
  startLocation : GeoLocation := {}
  endLocation : GeoLocation := {}
  userID : String := ""
  duration : Int := 0
  cost : Nat := 0
  startTime : Int := 0
  endTime : Int := 0
  distance : ℚ := 0
  type : String := ""
deriving DecidableEq, Repr

/-! ## The trip classifier (ClassifyTrip of the cripper package) -/

/-- One step of ClassifyTrip: the body of the loop, which sets the Type
field of a trip.  Rule order as in the source: a charge increase is a
charging trip regardless of distance; otherwise a charge drop below 1.1
percentage points combined with a distance above 1.0 km is a relocation;
otherwise a customer trip.  The float literals 1.1 and 1.0 are read as the
exact rationals they denote. -/
def classifyTrip (t : Trip) : Trip :=
  if t.startChargeLevel < t.endChargeLevel then
    { t with type := CHARGING_TRIP }
  else if t.startChargeLevel - t.endChargeLevel < 1.1 ∧ 1.0 < t.distance then
    { t with type := RELOCATION_TRIP }
  else
    { t with type := CUSTOMER_TRIP }

/-- ClassifyTrip over a whole stream of finalized trips (the channel is
modelled as a list processed in order). -/
def classifyStream (l : List Trip) : List Trip := l.map classifyTrip

/-! ## The per-trip cost computation -/

/-- Go time.Duration.Minutes for a duration of d nanoseconds: the stdlib
computes float64(d / Minute) + float64(d % Minute) / (60 * 1e9) with
truncating integer division; the float64 arithmetic is modelled exactly
over the rationals, where the expression equals d divided by the number of
nanoseconds per minute. -/
def goMinutes (d : Int) : ℚ :=
  ((d.tdiv 60000000000 : Int) : ℚ) + ((d.tmod 60000000000 : Int) : ℚ) / 60000000000

/-- Go conversion from a (real-valued) float to int: truncation toward
zero. -/
def truncToInt (q : ℚ) : Int :=
  if 0 ≤ q then ⌊q⌋ else ⌈q⌉

/-- Go conversion from int to uint64: reduction modulo 2 to the 64th
power. -/
def toUInt64 (x : Int) : Nat :=
  (x % (18446744073709551616 : Int)).toNat

/-- The cost expression the tracker computes at finalization time
(uint64(scooter.InitPrice + scooter.UnitPrice * int(trip.Duration.Minutes()))
in the generic tracker; the circ tracker computes the same expression from
its InitPrice and Price fields). -/
def tripCost (ip price d : Int) : Nat :=
  toUInt64 (ip + price * truncToInt (goMinutes d))

/-! ## The generic trip lifecycle tracker (TripAggregator of the cripper
package, the implementation of the spec's Trip Lifecycle Tracker) -/

/-- A scrape result as consumed by the generic tracker: the snapshot
timestamp (ScrapeDate) and the observed scooters. -/
structure ScrapeResult where
  date : Int
  scooters : List Scooter
deriving DecidableEq, Repr

/-- NewScooters of the cripper package: builds the map keyed by the
scooter's ID field, in slice order, later entries overwriting earlier
ones. -/
def NewScooters (l : List Scooter) : List (String × Scooter) :=
  l.foldl (fun m sc => insertKey m sc.id sc) []

/-- The haversine distance collaborator (external library): a function from
the two coordinate pairs to a distance in kilometers.  The tracker is
parametrized by it. -/
abbrev HavFun := ℚ → ℚ → ℚ → ℚ → ℚ

/-- The partial trip the tracker creates when a scooter vanishes: start
fields from the scooter's observation stored in the last-scooters map,
start time from the snapshot being processed.  All other fields keep their
Go zero values. -/
def newTrip (id : String) (sc : Scooter) (date : Int) : Trip :=
  { scooterID := id
    scooterProvider := "circ"
    startChargeLevel := sc.chargeLevel
    startLocation := sc.location
    startTime := date }

/-- Finalization of an open trip against the current observation of its
scooter: end fields, duration, cost and distance exactly as in the source
(Trip fields are set from the scooter, EndTime is the snapshot date,
Duration is EndTime minus StartTime). -/
def finalizeTrip (hav : HavFun) (t : Trip) (sc : Scooter) (date : Int) : Trip :=
  { t with
    endChargeLevel := sc.chargeLevel
    endLocation := sc.location
    userID := sc.stateUpdatedByUserID
    endTime := date
    duration := date - t.startTime
    cost := tripCost sc.initPrice sc.unitPrice (date - t.startTime)
    distance := hav t.startLocation.latitude t.startLocation.longitude
      sc.location.latitude sc.location.longitude }

/-- The finalization loop over the open-trips table: every open trip whose
scooter is present in the current snapshot is finalized and emitted (second
return component, in iteration order); the others stay open (first return
component). -/
def finalizePass (hav : HavFun) (scooters : List (String × Scooter)) (date : Int) :
    List (String × Trip) → List (String × Trip) × List Trip
  | [] => ([], [])
  | (id, t) :: rest =>
    let r := finalizePass hav scooters date rest
    match lookupKey scooters id with
    | some sc => (r.1, finalizeTrip hav t sc date :: r.2)
    | none => ((id, t) :: r.1, r.2)

/-- The opening loop: each vanished scooter gets a fresh partial trip
inserted into the open-trips table, in iteration order. -/
def openVanished (date : Int) :
    List (String × Scooter) → List (String × Trip) → List (String × Trip)
  | [], u => u
  | (id, sc) :: rest, u => openVanished date rest (insertKey u id (newTrip id sc date))

/-- The state of the generic TripAggregator: the open-trips table
(unfinishedTrips) and the vehicles of the previously processed snapshot
(lastScooters). -/
structure AggState where
  unfinishedTrips : List (String × Trip)
  lastScooters : List (String × Scooter)
deriving DecidableEq, Repr

/-- NewTripAggregator: empty open-trips table, empty last-scooters map. -/
def initialAggState : AggState :=
  { unfinishedTrips := [], lastScooters := NewScooters [] }

/-- One iteration of the generic tracker's loop body for one scrape result:
diff the current snapshot against the last one, open a trip per vanished
scooter, finalize and emit every open trip whose scooter reappeared, then
replace lastScooters with the current snapshot's map. -/
def aggregateStep (hav : HavFun) (st : AggState) (res : ScrapeResult) :
    AggState × List Trip :=
  let scooters := NewScooters res.scooters
  let vanished := differenceKey scooters st.lastScooters
  let opened := openVanished res.date vanished st.unfinishedTrips
  let fin := finalizePass hav scooters res.date opened
  ({ unfinishedTrips := fin.1, lastScooters := scooters }, fin.2)

/-- Processing a whole list of scrape results in order, collecting the
emitted trips in emission order. -/
def aggregateRun (hav : HavFun) (st : AggState) : List ScrapeResult → AggState × List Trip
  | [] => (st, [])
  | r :: rs =>
    let s1 := aggregateStep hav st r
    let s2 := aggregateRun hav s1.1 rs
    (s2.1, s1.2 ++ s2.2)

/-! ## The circ-specific tracker (TripAggregator of circ/file.go) -/

/-- The circ API scooter (circ/type.go).  Only the fields the aggregator
reads are modelled: Identifier, EnergyLevel, Latitude, Longitude,
InitPrice, Price and StateUpdatedByUserIdentifier; the remaining API fields
are never read by the code under verification. -/
structure CircScooter where
  identifier : String := ""
  energyLevel : Int := 0
  latitude : ℚ := 0
  longitude : ℚ := 0
  initPrice : Int := 0
  price : Int := 0
  stateUpdatedByUserIdentifier : String := ""
deriving DecidableEq, Repr

/-- A circ scrape result (circ/file.go): scrape date plus scooters. -/
structure CircScrapeResult where
  date : Int
  scooters : List CircScooter
deriving DecidableEq, Repr

/-- NewScooters of circ/file.go: the map is keyed by the Identifier
field. -/
def circNewScooters (l : List CircScooter) : List (String × CircScooter) :=
  l.foldl (fun m sc => insertKey m sc.identifier sc) []

/-- The partial trip the circ tracker creates for a vanished scooter:
StartChargeLevel is float64(EnergyLevel), StartLocation is built from the
Latitude and Longitude fields. -/
def circNewTrip (id : String) (sc : CircScooter) (date : Int) : Trip :=
  { scooterID := id
    scooterProvider := "circ"
    startChargeLevel := (sc.energyLevel : ℚ)
    startLocation := { latitude := sc.latitude, longitude := sc.longitude }
    startTime := date }

/-- Finalization in the circ tracker: as in the generic one, with the circ
field names (EnergyLevel, StateUpdatedByUserIdentifier, InitPrice,
Price). -/
def circFinalizeTrip (hav : HavFun) (t : Trip) (sc : CircScooter) (date : Int) : Trip :=
  { t with
    endChargeLevel := (sc.energyLevel : ℚ)
    endLocation := { latitude := sc.latitude, longitude := sc.longitude }
    userID := sc.stateUpdatedByUserIdentifier
    endTime := date
    duration := date - t.startTime
    cost := tripCost sc.initPrice sc.price (date - t.startTime)
    distance := hav t.startLocation.latitude t.startLocation.longitude
      sc.latitude sc.longitude }

/-- The circ tracker's finalization loop. -/
def circFinalizePass (hav : HavFun) (scooters : List (String × CircScooter)) (date : Int) :
    List (String × Trip) → List (String × Trip) × List Trip
  | [] => ([], [])
  | (id, t) :: rest =>
    let r := circFinalizePass hav scooters date rest
    match lookupKey scooters id with
    | some sc => (r.1, circFinalizeTrip hav t sc date :: r.2)
    | none => ((id, t) :: r.1, r.2)

/-- The circ tracker's opening loop. -/
def circOpenVanished (date : Int) :
    List (String × CircScooter) → List (String × Trip) → List (String × Trip)
  | [], u => u
  | (id, sc) :: rest, u => circOpenVanished date rest (insertKey u id (circNewTrip id sc date))

/-- The state of the circ TripAggregator. -/
structure CircAggState where
  unfinishedTrips : List (String × Trip)
  lastScooters : List (String × CircScooter)
deriving DecidableEq, Repr

/-- NewTripAggregator of circ/file.go. -/
def circInitialAggState : CircAggState :=
  { unfinishedTrips := [], lastScooters := circNewScooters [] }

/-- One iteration of the circ tracker's loop body (circ/file.go lines 264
to 301).  Faithful to the source, the lastScooters field is never
reassigned inside the loop, so the resulting state keeps the old value. -/
def circAggregateStep (hav : HavFun) (st : CircAggState) (res : CircScrapeResult) :
    CircAggState × List Trip :=
  let scooters := circNewScooters res.scooters
  let vanished := differenceKey scooters st.lastScooters
  let opened := circOpenVanished res.date vanished st.unfinishedTrips
  let fin := circFinalizePass hav scooters res.date opened
  ({ unfinishedTrips := fin.1, lastScooters := st.lastScooters }, fin.2)

/-- Processing a list of circ scrape results in order. -/
def circAggregateRun (hav : HavFun) (st : CircAggState) :
    List CircScrapeResult → CircAggState × List Trip
  | [] => (st, [])
  | r :: rs =>
    let s1 := circAggregateStep hav st r
    let s2 := circAggregateRun hav s1.1 rs
    (s2.1, s1.2 ++ s2.2)


/-- Helper building a trip with given start and end charge levels and
distance, all other fields at their Go zero values. -/
def mkClassifierTrip (s e d : ℚ) : Trip :=
  { startChargeLevel := s, endChargeLevel := e, distance := d }


/-! ## Nondeterministic emission order

Go iterates maps in an unspecified, runtime-randomized order.  In the
tracker this affects only the order in which the two loops of one
aggregation step visit their maps; the step relation below captures every
possible iteration order of the finalization loop by letting the open-trips
table be visited as an arbitrary permutation of its canonical list.  The
deterministic functions above are the canonical representative. -/

/-- One aggregation step with an arbitrary iteration order of the
open-trips table: some permutation ul of the table (after the opening loop)
is visited; the remaining table and the emitted trips are computed from
ul.  The deterministic aggregateStep is the special case of the identity
permutation. -/
def StepRel (hav : HavFun) (st : AggState) (res : ScrapeResult)
    (st' : AggState) (out : List Trip) : Prop :=
  ∃ ul : List (String × Trip),
    ul.Perm (openVanished res.date
      (differenceKey (NewScooters res.scooters) st.lastScooters) st.unfinishedTrips)
    ∧ st' = { unfinishedTrips := (finalizePass hav (NewScooters res.scooters) res.date ul).1,
              lastScooters := NewScooters res.scooters }
    ∧ out = (finalizePass hav (NewScooters res.scooters) res.date ul).2

/-- A whole run of the tracker under arbitrary per-step iteration orders,
relating the input stream to one possible emitted trip sequence. -/
inductive RunRel (hav : HavFun) : AggState → List ScrapeResult → List Trip → Prop
  | nil (st : AggState) : RunRel hav st [] []
  | cons {st : AggState} {res : ScrapeResult} {st' : AggState} {out : List Trip}
      {rs : List ScrapeResult} {outs : List Trip} :
      StepRel hav st res st' out → RunRel hav st' rs outs →
      RunRel hav st (res :: rs) (out ++ outs)

/-! ## The live source's fetch loop (Scraper.doScrape, circ/file.go lines
157 to 204) -/

/-- The outcome of one call of client.Scooters as seen by doScrape: a
successful fetch, a CircError with its HTTP status, or an unclassified
error. -/
inductive FetchOutcome
  | ok
  | circErr (status : Int)
  | otherErr
deriving DecidableEq, Repr

/-- How one doScrape invocation ends.  The fatal constructors model the
log.Fatalf calls (process abort); attempts counts the client.Scooters
calls made.  fuelOut means the loop was still running after the given
number of iterations. -/
inductive ScrapeExit
  | success (attempts : ℕ)
  | fatalAuth (attempts : ℕ)
  | fatalUnhandable (attempts : ℕ)
  | fatalRetries (attempts : ℕ)
  | fuelOut
deriving DecidableEq, Repr

/-- The inner re-authentication loop of doScrape: while authCounter is
below maxAuthRetries (5), call Login, breaking on success (without
incrementing authCounter) and incrementing authCounter on failure.  The
loop is modelled with the remaining budget 5 - authCounter as the recursion
measure; li indexes the stream of login outcomes, and the pair
(next index, final authCounter) is returned. -/
def authLoop (logins : ℕ → Bool) : ℕ → ℕ → ℕ → ℕ × ℕ
  | 0, li, a => (li, a)
  | rem + 1, li, a =>
    if logins li then (li + 1, a) else authLoop logins rem (li + 1) (a + 1)

/-- The outer loop of doScrape, fuel-indexed.  State: fi indexes the stream
of fetch outcomes, li the stream of login outcomes, r is retryCounter, a is
authCounter (shared across iterations, never reset), s is success.  The
loop runs while retryCounter is below maxRetries (5) or success is still
false.  An ok outcome sets success; a CircError with a 4xx status runs the
re-authentication loop and is fatal when the auth budget is exhausted; any
other CircError is fatal immediately; an unclassified error increments
retryCounter twice per iteration (once in the body, once by the for-post
statement reached through continue) and is fatal exactly when the counter
hits 5 after the body increment.  The 5-second sleep has no bearing on the
attempt counts and is not modelled. -/
def doScrapeLoop (outcomes : ℕ → FetchOutcome) (logins : ℕ → Bool) :
    ℕ → ℕ → ℕ → ℕ → ℕ → Bool → ScrapeExit
  | 0, _, _, _, _, _ => .fuelOut
  | fuel + 1, fi, li, r, a, s =>
    if r < 5 ∨ s = false then
      match outcomes fi with
      | .ok => doScrapeLoop outcomes logins fuel (fi + 1) li (r + 1) a true
      | .circErr status =>
        if 400 ≤ status ∧ status < 500 then
          let res := authLoop logins (5 - a) li a
          if 5 ≤ res.2 then .fatalAuth (fi + 1)
          else doScrapeLoop outcomes logins fuel (fi + 1) res.1 (r + 1) res.2 s
        else .fatalUnhandable (fi + 1)
      | .otherErr =>
        if r + 1 = 5 then .fatalRetries (fi + 1)
        else doScrapeLoop outcomes logins fuel (fi + 1) li (r + 1 + 1) a s
    else .success fi

/-- One doScrape invocation from the initial state. -/
def doScrape (outcomes : ℕ → FetchOutcome) (logins : ℕ → Bool) (fuel : ℕ) : ScrapeExit :=
  doScrapeLoop outcomes logins fuel 0 0 0 0 false

/-- Divergence of doScrape on given outcome streams: no amount of fuel
makes the loop finish, i.e. the number of request attempts is unbounded. -/
def DoScrapeDiverges (outcomes : ℕ → FetchOutcome) (logins : ℕ → Bool) : Prop :=
  ∀ fuel : ℕ, doScrape outcomes logins fuel = ScrapeExit.fuelOut

/-- Every fetch fails with HTTP 401. -/
def always401 : ℕ → FetchOutcome := fun _ => FetchOutcome.circErr 401

/-- Every fetch fails with an unclassified error. -/
def alwaysOtherErr : ℕ → FetchOutcome := fun _ => FetchOutcome.otherErr

/-- Every fetch succeeds. -/
def alwaysOk : ℕ → FetchOutcome := fun _ => FetchOutcome.ok

/-- Every login succeeds. -/
def alwaysLoginOk : ℕ → Bool := fun _ => true

/-- Every login fails. -/
def alwaysLoginFail : ℕ → Bool := fun _ => false

/-! ## Concrete inputs used by witnesses and counterexamples -/

/-- A stand-in for the haversine collaborator in concrete evaluations. -/
def havZero : HavFun := fun _ _ _ _ => 0

/-- Snapshot S1 of the three-snapshot scenario: the vehicle v1 is present
with charge 80 at location x; the pricing fields are ip and up. -/
def c2Start (t1 : Int) (x : GeoLocation) (ip up : Int) : ScrapeResult :=
  { date := t1,
    scooters := [{ id := "v1", chargeLevel := 80, location := x,
                   initPrice := ip, unitPrice := up }] }

/-- Snapshot S2 of the scenario: the vehicle is absent. -/
def c2Mid (t2 : Int) : ScrapeResult := { date := t2, scooters := [] }

/-- Snapshot S3 of the scenario: the vehicle reappears with charge 60 at
location y, last touched by user u1. -/
def c2End (t3 : Int) (y : GeoLocation) (ip up : Int) : ScrapeResult :=
  { date := t3,
    scooters := [{ id := "v1", chargeLevel := 60, location := y,
                   stateUpdatedByUserID := "u1", initPrice := ip, unitPrice := up }] }

/-- The one trip the generic tracker finalizes in the three-snapshot
scenario. -/
def c2ExpectedTrip (hav : HavFun) (t2 t3 : Int) (x y : GeoLocation) (ip up : Int) : Trip :=
  { scooterID := "v1", scooterProvider := "circ",
    startChargeLevel := 80, startLocation := x, startTime := t2,
    endChargeLevel := 60, endLocation := y, userID := "u1",
    endTime := t3, duration := t3 - t2, cost := tripCost ip up (t3 - t2),
    distance := hav x.latitude x.longitude y.latitude y.longitude }

/-- The same three-snapshot scenario for the circ tracker, at concrete
times and locations. -/
def c2CircS1 : CircScrapeResult :=
  { date := 0,
    scooters := [{ identifier := "v1", energyLevel := 80, latitude := 1, longitude := 2 }] }

/-- Circ snapshot S2: the vehicle is absent. -/
def c2CircS2 : CircScrapeResult := { date := 60000000000, scooters := [] }

/-- Circ snapshot S3: the vehicle reappears. -/
def c2CircS3 : CircScrapeResult :=
  { date := 120000000000,
    scooters := [{ identifier := "v1", energyLevel := 60, latitude := 3, longitude := 4,
                   stateUpdatedByUserIdentifier := "u1" }] }

/-- First snapshot of the two-vehicle scenario: a and b present. -/
def c8S1 : ScrapeResult :=
  { date := 0,
    scooters := [{ id := "a", chargeLevel := 80, location := { latitude := 1, longitude := 1 } },
                 { id := "b", chargeLevel := 70, location := { latitude := 2, longitude := 2 } }] }

/-- Second snapshot: both vehicles gone, so two trips open here. -/
def c8S2 : ScrapeResult := { date := 60000000000, scooters := [] }

/-- Third snapshot: both vehicles back, so two trips finalize in the same
step. -/
def c8S3 : ScrapeResult :=
  { date := 120000000000,
    scooters := [{ id := "a", chargeLevel := 50, location := { latitude := 3, longitude := 3 },
                   stateUpdatedByUserID := "ua" },
                 { id := "b", chargeLevel := 40, location := { latitude := 4, longitude := 4 },
                   stateUpdatedByUserID := "ub" }] }

/-- The two-vehicle input stream. -/
def c8Input : List ScrapeResult := [c8S1, c8S2, c8S3]

/-- The canonical emitted trip sequence of the two-vehicle run. -/
def c8Out1 : List Trip := (aggregateRun havZero initialAggState c8Input).2

/-- The same trips emitted in the opposite order, as produced by the
reversed iteration order of the finalization loop in the third step. -/
def c8Out2 : List Trip := c8Out1.reverse

/-- The open-trips table right before the third step of the two-vehicle
run, in canonical order. -/
def c8OpenTable : List (String × Trip) :=
  ((aggregateRun havZero initialAggState [c8S1, c8S2]).1).unfinishedTrips

/-- The reversed iteration order of the open-trips table chosen by the
second run in its third step. -/
def c8UlSwap : List (String × Trip) := c8OpenTable.reverse
/-! ## Basic lemmas about the map operations -/

theorem lookupKey_eraseKey {α : Type} (m : List (String × α)) (k k' : String) :
    lookupKey (eraseKey m k) k' = if k' = k then none else lookupKey m k' := by
  induction m with
  | nil => simp [eraseKey, lookupKey]
  | cons p rest ih =>
    by_cases hpk : p.1 = k
    · have h1 : eraseKey (p :: rest) k = eraseKey rest k := by
        simp [eraseKey, List.filter_cons, hpk]
      rw [h1, ih]
      by_cases hk' : k' = k
      · simp [hk']
      · have hpk' : ¬ p.1 = k' := by
          rw [hpk]; intro h; exact hk' h.symm
        simp [lookupKey, hpk', hk']
    · have h1 : eraseKey (p :: rest) k = p :: eraseKey rest k := by
        simp [eraseKey, List.filter_cons, hpk]
      rw [h1]
      by_cases hpk' : p.1 = k'
      · have hk' : ¬ k' = k := by
          intro h; exact hpk (hpk'.trans h)
        simp [lookupKey, hpk', hk']
      · simp only [lookupKey, if_neg hpk']
        exact ih

theorem lookupKey_insertKey {α : Type} (m : List (String × α)) (k k' : String) (v : α) :
    lookupKey (insertKey m k v) k' = if k = k' then some v else lookupKey m k' := by
  by_cases h : k = k'
  · simp [insertKey, lookupKey, h]
  · have hk : ¬ k' = k := fun hh => h hh.symm
    simp [insertKey, lookupKey, h, lookupKey_eraseKey, hk]

theorem lookupKey_differenceKey {α : Type} (s ns : List (String × α)) (k : String) :
    lookupKey (differenceKey s ns) k =
      if (lookupKey s k).isSome then none else lookupKey ns k := by
  induction ns with
  | nil => cases h : lookupKey s k <;> simp [differenceKey, lookupKey, h]
  | cons p rest ih =>
    by_cases hpk : p.1 = k
    · subst hpk
      cases h : lookupKey s p.1 with
      | none =>
        have h1 : differenceKey s (p :: rest) = p :: differenceKey s rest := by
          simp [differenceKey, List.filter_cons, h]
        rw [h1]
        simp [lookupKey, h]
      | some v =>
        have h1 : differenceKey s (p :: rest) = differenceKey s rest := by
          simp [differenceKey, List.filter_cons, h]
        rw [h1, ih]
        simp [lookupKey, h]
    · cases h : lookupKey s p.1 with
      | none =>
        have h1 : differenceKey s (p :: rest) = p :: differenceKey s rest := by
          simp [differenceKey, List.filter_cons, h]
        rw [h1]
        simp only [lookupKey, if_neg hpk]
        rw [ih]
      | some v =>
        have h1 : differenceKey s (p :: rest) = differenceKey s rest := by
          simp [differenceKey, List.filter_cons, h]
        rw [h1, ih]
        simp only [lookupKey, if_neg hpk]


/-! ## Claim C4: the classifier's ordered rules -/

/-- C4: the classifier assigns exactly one category by the ordered rules:
a charge increase gives CHARGING_TRIP regardless of distance; otherwise a
charge drop below 1.1 points together with a distance above 1.0 km gives
RELOCATION_TRIP; otherwise CUSTOMER_TRIP.  In particular 80 to 85 gives
CHARGING_TRIP for any distance, 80 to 79.5 at 5 km gives RELOCATION_TRIP
and 80 to 40 at 5 km gives CUSTOMER_TRIP. -/
theorem classifier_ordered_rules :
    (∀ t : Trip, t.startChargeLevel < t.endChargeLevel →
      (classifyTrip t).type = CHARGING_TRIP)
    ∧ (∀ t : Trip, ¬ t.startChargeLevel < t.endChargeLevel →
        t.startChargeLevel - t.endChargeLevel < 1.1 → 1.0 < t.distance →
        (classifyTrip t).type = RELOCATION_TRIP)
    ∧ (∀ t : Trip, ¬ t.startChargeLevel < t.endChargeLevel →
        ¬ (t.startChargeLevel - t.endChargeLevel < 1.1 ∧ 1.0 < t.distance) →
        (classifyTrip t).type = CUSTOMER_TRIP)
    ∧ (∀ d : ℚ, (classifyTrip (mkClassifierTrip 80 85 d)).type = CHARGING_TRIP)
    ∧ (classifyTrip (mkClassifierTrip 80 79.5 5.0)).type = RELOCATION_TRIP
    ∧ (classifyTrip (mkClassifierTrip 80 40 5.0)).type = CUSTOMER_TRIP := by
  refine ⟨?_, ?_, ?_, ?_, ?_, ?_⟩
  · intro t h
    simp [classifyTrip, h]
  · intro t h h1 h2
    simp [classifyTrip, h, h1, h2]
  · intro t h h2
    simp [classifyTrip, h, h2]
  · intro d
    norm_num [classifyTrip, mkClassifierTrip]
  · norm_num [classifyTrip, mkClassifierTrip]
  · norm_num [classifyTrip, mkClassifierTrip]

/-- Witness for C4: the hypotheses of the rule clauses are satisfiable; the
customer-trip clause applied at the concrete 80 to 40, 5 km trip. -/
theorem classifier_ordered_rules_witness :
    (classifyTrip (mkClassifierTrip 80 40 5.0)).type = CUSTOMER_TRIP :=
  classifier_ordered_rules.2.2.1 (mkClassifierTrip 80 40 5.0)
    (by norm_num [mkClassifierTrip])
    (by norm_num [mkClassifierTrip])

/-! ## Claim C5: the cost formula -/

theorem goMinutes_eq (d : Int) : goMinutes d = (d : ℚ) / 60000000000 := by
  have h := Int.tdiv_add_tmod d 60000000000
  have h' : ((60000000000 : Int) : ℚ) * ((d.tdiv 60000000000 : Int) : ℚ)
      + ((d.tmod 60000000000 : Int) : ℚ) = (d : ℚ) := by
    exact_mod_cast congrArg (fun z : Int => (z : ℚ)) h
  push_cast at h'
  unfold goMinutes
  field_simp
  linarith

theorem truncToInt_goMinutes (d : Int) (hd : 0 ≤ d) :
    truncToInt (goMinutes d) = ⌊(d : ℚ) / 60000000000⌋ := by
  rw [goMinutes_eq, truncToInt]
  have hnn : (0 : ℚ) ≤ (d : ℚ) / 60000000000 := by
    have : (0 : ℚ) ≤ (d : ℚ) := by exact_mod_cast hd
    positivity
  rw [if_pos hnn]

/-- C5: for nonnegative fee, rate and duration (the regime of every trip
the tracker finalizes on a time-ordered stream), the cost the tracker
computes equals the flat initiation fee plus the per-minute rate times the
floor of the duration in minutes, as exact integer arithmetic; in
particular a trip lasting strictly less than one minute costs exactly the
initiation fee.  The bound keeps the uint64 conversion from wrapping. -/
theorem tracker_cost_formula (ip rate d : Int) (hip : 0 ≤ ip) (hrate : 0 ≤ rate)
    (hd : 0 ≤ d)
    (hbound : ip + rate * ⌊(d : ℚ) / 60000000000⌋ < 18446744073709551616) :
    (∀ (hav : HavFun) (t : Trip) (sc : Scooter) (date : Int),
      (finalizeTrip hav t sc date).cost
        = tripCost sc.initPrice sc.unitPrice (date - t.startTime))
    ∧ ((tripCost ip rate d : Nat) : Int) = ip + rate * ⌊(d : ℚ) / 60000000000⌋
    ∧ (d < 60000000000 → tripCost ip rate d = ip.toNat) := by
  refine ⟨fun _ _ _ _ => rfl, ?_⟩
  have hdq : (0 : ℚ) ≤ (d : ℚ) := by exact_mod_cast hd
  have hfloor0 : 0 ≤ ⌊(d : ℚ) / 60000000000⌋ := by
    apply Int.floor_nonneg.mpr
    positivity
  have hx : 0 ≤ ip + rate * ⌊(d : ℚ) / 60000000000⌋ :=
    add_nonneg hip (mul_nonneg hrate hfloor0)
  constructor
  · unfold tripCost toUInt64
    rw [truncToInt_goMinutes d hd, Int.emod_eq_of_lt hx hbound,
      Int.toNat_of_nonneg hx]
  · intro hlt
    have hflz : ⌊(d : ℚ) / 60000000000⌋ = 0 := by
      rw [Int.floor_eq_zero_iff]
      constructor
      · positivity
      · rw [div_lt_one (by norm_num)]
        exact_mod_cast hlt
    unfold tripCost toUInt64
    rw [truncToInt_goMinutes d hd, hflz, mul_zero, add_zero,
      Int.emod_eq_of_lt hip (by simpa [hflz] using hbound)]

/-- Witness for C5 at a concrete sub-minute duration: fee 100, rate 25,
duration one nanosecond short of a minute; the cost is exactly the fee. -/
theorem tracker_cost_formula_witness :
    (∀ (hav : HavFun) (t : Trip) (sc : Scooter) (date : Int),
      (finalizeTrip hav t sc date).cost
        = tripCost sc.initPrice sc.unitPrice (date - t.startTime))
    ∧ ((tripCost 100 25 59999999999 : Nat) : Int)
        = 100 + 25 * ⌊(59999999999 : ℚ) / 60000000000⌋
    ∧ ((59999999999 : Int) < 60000000000 → tripCost 100 25 59999999999 = (100 : Int).toNat) :=
  tracker_cost_formula 100 25 59999999999 (by norm_num) (by norm_num) (by norm_num)
    (by norm_num [Int.floor_eq_zero_iff, Set.mem_Ico])

/-! ## Further map lemmas -/

theorem keyList_cons {α : Type} (p : String × α) (m : List (String × α)) :
    keyList (p :: m) = p.1 :: keyList m := rfl

theorem keyList_insertKey {α : Type} (m : List (String × α)) (k : String) (v : α) :
    keyList (insertKey m k v) = k :: keyList (eraseKey m k) := rfl

theorem mem_keyList_eraseKey {α : Type} {m : List (String × α)} {k id : String}
    (h : id ∈ keyList (eraseKey m k)) : id ∈ keyList m := by
  rcases List.mem_map.mp h with ⟨p, hp, rfl⟩
  exact List.mem_map_of_mem Prod.fst (List.mem_filter.mp hp).1

theorem lookupKey_isSome_of_mem {α : Type} {m : List (String × α)} {p : String × α}
    (hp : p ∈ m) : (lookupKey m p.1).isSome := by
  induction m with
  | nil => cases hp
  | cons q rest ih =>
    rcases List.mem_cons.mp hp with h | h
    · subst h; simp [lookupKey]
    · by_cases hq : q.1 = p.1
      · simp [lookupKey, hq]
      · simpa [lookupKey, hq] using ih h

theorem lookupKey_eq_none_of_not_mem {α : Type} (m : List (String × α)) (k : String)
    (h : k ∉ keyList m) : lookupKey m k = none := by
  induction m with
  | nil => rfl
  | cons p rest ih =>
    have h1 : ¬ p.1 = k := by
      intro he
      exact h (by rw [keyList_cons, he]; exact List.mem_cons_self _ _)
    have h2 : k ∉ keyList rest := by
      intro hm
      exact h (by rw [keyList_cons]; exact List.mem_cons_of_mem _ hm)
    simp [lookupKey, h1, ih h2]

theorem mem_keyList_of_lookup {α : Type} {m : List (String × α)} {k : String} {v : α}
    (h : lookupKey m k = some v) : k ∈ keyList m := by
  induction m with
  | nil => simp [lookupKey] at h
  | cons p rest ih =>
    by_cases hp : p.1 = k
    · rw [keyList_cons, hp]; exact List.mem_cons_self _ _
    · simp only [lookupKey, if_neg hp] at h
      rw [keyList_cons]
      exact List.mem_cons_of_mem _ (ih h)

theorem lookupKey_filterKey {α : Type} (f : String → Bool) (m : List (String × α)) (k : String) :
    lookupKey (m.filter (fun q => f q.1)) k = if f k then lookupKey m k else none := by
  induction m with
  | nil => cases h : f k <;> simp [lookupKey, h]
  | cons p rest ih =>
    by_cases hpk : p.1 = k
    · subst hpk
      cases h : f p.1 <;> simp [List.filter_cons, h, lookupKey, ih]
    · cases h : f p.1 <;> simp [List.filter_cons, h, lookupKey, hpk, ih]

theorem vanished_key_absent {α : Type} (s prev : List (String × α)) (id : String)
    (h : id ∈ keyList (differenceKey s prev)) : lookupKey s id = none := by
  rcases List.mem_map.mp h with ⟨p, hp, rfl⟩
  have h2 := (List.mem_filter.mp hp).2
  simpa [Option.isNone_iff_eq_none] using h2

theorem keyList_differenceKey_subset {α : Type} (s prev : List (String × α)) (id : String)
    (h : id ∈ keyList (differenceKey s prev)) : id ∈ keyList prev := by
  rcases List.mem_map.mp h with ⟨p, hp, rfl⟩
  exact List.mem_map_of_mem Prod.fst (List.mem_filter.mp hp).1

theorem differenceKey_self {α : Type} (m : List (String × α)) : differenceKey m m = [] := by
  apply List.filter_eq_nil_iff.mpr
  intro p hp
  have h := lookupKey_isSome_of_mem hp
  cases hl : lookupKey m p.1 with
  | none => rw [hl] at h; simp at h
  | some v => simp [hl]

/-! ## Structure of the finalization and opening loops -/

theorem finalizePass_eq (hav : HavFun) (s : List (String × Scooter)) (date : Int)
    (l : List (String × Trip)) :
    finalizePass hav s date l =
      (l.filter (fun q => (lookupKey s q.1).isNone),
       l.filterMap (fun q =>
         (lookupKey s q.1).map (fun sc => finalizeTrip hav q.2 sc date))) := by
  induction l with
  | nil => rfl
  | cons q rest ih =>
    obtain ⟨id, t⟩ := q
    cases h : lookupKey s id <;>
      simp [finalizePass, h, ih, List.filter_cons, List.filterMap_cons]

theorem circFinalizePass_eq (hav : HavFun) (s : List (String × CircScooter)) (date : Int)
    (l : List (String × Trip)) :
    circFinalizePass hav s date l =
      (l.filter (fun q => (lookupKey s q.1).isNone),
       l.filterMap (fun q =>
         (lookupKey s q.1).map (fun sc => circFinalizeTrip hav q.2 sc date))) := by
  induction l with
  | nil => rfl
  | cons q rest ih =>
    obtain ⟨id, t⟩ := q
    cases h : lookupKey s id <;>
      simp [circFinalizePass, h, ih, List.filter_cons, List.filterMap_cons]

theorem circOpenVanished_keys (date : Int) :
    ∀ (vl : List (String × CircScooter)) (u : List (String × Trip)) (q : String × Trip),
      q ∈ circOpenVanished date vl u → q.1 ∈ keyList vl ∨ q.1 ∈ keyList u := by
  intro vl
  induction vl with
  | nil =>
    intro u q hq
    right
    exact List.mem_map_of_mem Prod.fst hq
  | cons p rest ih =>
    intro u q hq
    rcases ih _ q hq with h | h
    · left
      rw [keyList_cons]
      exact List.mem_cons_of_mem _ h
    · rw [keyList_insertKey] at h
      rcases List.mem_cons.mp h with h1 | h1
      · left
        rw [keyList_cons, h1]
        exact List.mem_cons_self _ _
      · right
        exact mem_keyList_eraseKey h1

theorem circStep_emit_nil (hav : HavFun) (prev : List (String × CircScooter))
    (res : CircScrapeResult) :
    (circAggregateStep hav { unfinishedTrips := [], lastScooters := prev } res).2 = [] := by
  have hkeys : ∀ q ∈ circOpenVanished res.date
      (differenceKey (circNewScooters res.scooters) prev) [],
      lookupKey (circNewScooters res.scooters) q.1 = none := by
    intro q hq
    rcases circOpenVanished_keys res.date _ [] q hq with h | h
    · exact vanished_key_absent _ _ _ h
    · simp [keyList] at h
  show (circFinalizePass hav (circNewScooters res.scooters) res.date
    (circOpenVanished res.date
      (differenceKey (circNewScooters res.scooters) prev) [])).2 = []
  rw [circFinalizePass_eq]
  apply List.filterMap_eq_nil_iff.mpr
  intro q hq
  rw [hkeys q hq]
  rfl

/-! ## Claim C1: the diff operation -/

/-- C1: current.Difference(previous) returns exactly the map whose keys are
the identifiers present in previous but absent from current, each mapped to
its observation from previous (first conjunct, a full lookup
characterization); for two snapshots with disjoint identifier sets the
vanished set is all of the previous snapshot (second conjunct, the result
is previous itself); and, against an empty open-trips table, processing
such a snapshot finalizes no trip (third conjunct). -/
theorem difference_vanished_exactly :
    (∀ cur prev : List (String × CircScooter), ∀ id : String,
      lookupKey (differenceKey cur prev) id =
        if (lookupKey cur id).isSome then none else lookupKey prev id)
    ∧ (∀ cur prev : List (String × CircScooter),
        (∀ id, id ∈ keyList prev → id ∉ keyList cur) →
        differenceKey cur prev = prev)
    ∧ (∀ (hav : HavFun) (prev : List (String × CircScooter)) (res : CircScrapeResult),
        (∀ id, id ∈ keyList prev → id ∉ keyList (circNewScooters res.scooters)) →
        (circAggregateStep hav { unfinishedTrips := [], lastScooters := prev } res).2 = []) := by
  refine ⟨lookupKey_differenceKey, ?_, ?_⟩
  · intro cur prev hdisj
    apply List.filter_eq_self.mpr
    intro p hp
    have h1 : p.1 ∈ keyList prev := List.mem_map_of_mem Prod.fst hp
    have h2 := lookupKey_eq_none_of_not_mem cur p.1 (hdisj p.1 h1)
    simp [h2]
  · intro hav prev res _
    exact circStep_emit_nil hav prev res

/-- Witness for C1: concrete disjoint one-scooter snapshots; the vanished
set is all of the previous snapshot and the step against an empty
open-trips table emits nothing. -/
theorem difference_vanished_exactly_witness :
    differenceKey (circNewScooters [{ identifier := "b" }])
        (circNewScooters [{ identifier := "a" }])
      = circNewScooters [{ identifier := "a" }]
    ∧ (circAggregateStep havZero
        { unfinishedTrips := [],
          lastScooters := circNewScooters [{ identifier := "a" }] }
        { date := 1, scooters := [{ identifier := "b" }] }).2 = [] :=
  ⟨difference_vanished_exactly.2.1 _ _ (by decide),
   difference_vanished_exactly.2.2 havZero _ _ (by decide)⟩

/-! ## Claim C2: the three-snapshot scenario -/

/-- Counterexample to C2 on the cited code: the circ TripAggregator
(circ/file.go lines 262 to 304) never assigns lastScooters inside its loop,
so its difference is always taken against the initial empty map, no trip is
ever opened, and the three-snapshot scenario emits no trip at all instead
of exactly one. -/
theorem circ_three_snapshots_no_trip :
    (circAggregateRun havZero circInitialAggState [c2CircS1, c2CircS2, c2CircS3]).2 = [] := by
  rfl

/-- C2 as amended: with the repository's generic TripAggregator (the
cripper tracker, which does update lastScooters), the three-snapshot
scenario finalizes exactly one trip, emitted while processing S3, with
start charge 80, start location x, end charge 60, end location y, user u1,
end time the timestamp of S3 and duration S3 minus S2 (the tracker records
the start at the snapshot where the absence is first observed, which is
S2, not S1). -/
theorem three_snapshots_one_trip (hav : HavFun) (t1 t2 t3 : Int)
    (x y : GeoLocation) (ip up : Int) :
    (aggregateRun hav initialAggState [c2Start t1 x ip up, c2Mid t2, c2End t3 y ip up]).2
      = [c2ExpectedTrip hav t2 t3 x y ip up]
    ∧ (c2ExpectedTrip hav t2 t3 x y ip up).startChargeLevel = 80
    ∧ (c2ExpectedTrip hav t2 t3 x y ip up).startLocation = x
    ∧ (c2ExpectedTrip hav t2 t3 x y ip up).endChargeLevel = 60
    ∧ (c2ExpectedTrip hav t2 t3 x y ip up).endLocation = y
    ∧ (c2ExpectedTrip hav t2 t3 x y ip up).userID = "u1"
    ∧ (c2ExpectedTrip hav t2 t3 x y ip up).endTime = t3
    ∧ (c2ExpectedTrip hav t2 t3 x y ip up).duration = t3 - t2 := by
  refine ⟨?_, rfl, rfl, rfl, rfl, rfl, rfl, rfl⟩
  rfl

/-! ## Key uniqueness of the open-trips table -/

theorem keyList_filterKey {α : Type} (f : String → Bool) (m : List (String × α)) :
    keyList (m.filter (fun q => f q.1)) = (keyList m).filter f := by
  unfold keyList
  rw [List.filter_map]
  rfl

theorem nodup_keyList_insertKey {α : Type} (m : List (String × α)) (k : String) (v : α)
    (h : (keyList m).Nodup) : (keyList (insertKey m k v)).Nodup := by
  rw [keyList_insertKey, List.nodup_cons]
  constructor
  · intro hk
    rcases List.mem_map.mp hk with ⟨p, hp, he⟩
    have h2 := (List.mem_filter.mp hp).2
    rw [he] at h2
    simp at h2
  · show (keyList (eraseKey m k)).Nodup
    have he : keyList (eraseKey m k) = (keyList m).filter (fun x => decide (x ≠ k)) :=
      keyList_filterKey (fun x => decide (x ≠ k)) m
    rw [he]
    exact List.Nodup.filter _ h

theorem nodup_keyList_openVanished (date : Int) :
    ∀ (vl : List (String × Scooter)) (u : List (String × Trip)),
      (keyList u).Nodup → (keyList (openVanished date vl u)).Nodup := by
  intro vl
  induction vl with
  | nil => intro u h; exact h
  | cons p rest ih =>
    intro u h
    obtain ⟨id, sc⟩ := p
    exact ih _ (nodup_keyList_insertKey _ _ _ h)

theorem aggregateStep_inv (hav : HavFun) (st : AggState) (res : ScrapeResult)
    (hnd : (keyList st.unfinishedTrips).Nodup) :
    (keyList ((aggregateStep hav st res).1).unfinishedTrips).Nodup
    ∧ ∀ id ∈ keyList ((aggregateStep hav st res).1).unfinishedTrips,
        lookupKey ((aggregateStep hav st res).1).lastScooters id = none := by
  have hfin : ((aggregateStep hav st res).1).unfinishedTrips =
      (openVanished res.date
        (differenceKey (NewScooters res.scooters) st.lastScooters)
        st.unfinishedTrips).filter
        (fun q => (lookupKey (NewScooters res.scooters) q.1).isNone) := by
    show (finalizePass hav (NewScooters res.scooters) res.date _).1 = _
    rw [finalizePass_eq]
  have hlast : ((aggregateStep hav st res).1).lastScooters = NewScooters res.scooters := rfl
  constructor
  · rw [hfin, keyList_filterKey (fun k => (lookupKey (NewScooters res.scooters) k).isNone)]
    exact List.Nodup.filter _ (nodup_keyList_openVanished res.date _ _ hnd)
  · intro id hid
    rw [hfin, keyList_filterKey (fun k => (lookupKey (NewScooters res.scooters) k).isNone)] at hid
    have h2 := (List.mem_filter.mp hid).2
    rw [hlast]
    exact Option.isNone_iff_eq_none.mp h2

theorem aggregateRun_inv (hav : HavFun) : ∀ (l : List ScrapeResult) (st : AggState),
    (keyList st.unfinishedTrips).Nodup →
    (∀ id ∈ keyList st.unfinishedTrips, lookupKey st.lastScooters id = none) →
    (keyList ((aggregateRun hav st l).1).unfinishedTrips).Nodup
    ∧ ∀ id ∈ keyList ((aggregateRun hav st l).1).unfinishedTrips,
        lookupKey ((aggregateRun hav st l).1).lastScooters id = none := by
  intro l
  induction l with
  | nil => intro st h1 h2; exact ⟨h1, h2⟩
  | cons r rs ih =>
    intro st h1 _
    have hstep := aggregateStep_inv hav st r h1
    exact ih _ hstep.1 hstep.2

/-! ## Claim C3: at most one open trip per vehicle, no overwriting -/

/-- C3: in every reachable state of the generic tracker, the open-trips
table binds each vehicle identifier at most once, and at every next step
each vanished identifier is absent from the open-trips table, so no step
overwrites an existing open trip. -/
theorem open_trips_unique (hav : HavFun) (l : List ScrapeResult) :
    (keyList ((aggregateRun hav initialAggState l).1).unfinishedTrips).Nodup
    ∧ ∀ (res : ScrapeResult) (id : String),
        id ∈ keyList (differenceKey (NewScooters res.scooters)
          ((aggregateRun hav initialAggState l).1).lastScooters) →
        id ∉ keyList ((aggregateRun hav initialAggState l).1).unfinishedTrips := by
  obtain ⟨h1, h2⟩ := aggregateRun_inv hav l initialAggState
    (by simp [initialAggState, keyList])
    (by simp [initialAggState, keyList])
  refine ⟨h1, ?_⟩
  intro res id hv hmem
  have hlast := h2 id hmem
  have hsub := keyList_differenceKey_subset _ _ _ hv
  rcases List.mem_map.mp hsub with ⟨p, hp, he⟩
  have hs := lookupKey_isSome_of_mem hp
  rw [he, hlast] at hs
  simp at hs

/-- Witness for C3: after one snapshot containing vehicle a, it vanishes at
an empty next snapshot and is indeed not yet in the (empty) open-trips
table. -/
theorem open_trips_unique_witness :
    "a" ∈ keyList (differenceKey
        (NewScooters ({ date := 1, scooters := [] } : ScrapeResult).scooters)
        ((aggregateRun havZero initialAggState
          [{ date := 0, scooters := [{ id := "a" }] }]).1).lastScooters)
    ∧ "a" ∉ keyList ((aggregateRun havZero initialAggState
        [{ date := 0, scooters := [{ id := "a" }] }]).1).unfinishedTrips :=
  ⟨by decide,
   (open_trips_unique havZero [{ date := 0, scooters := [{ id := "a" }] }]).2
     { date := 1, scooters := [] } "a" (by decide)⟩

/-! ## Lookup across the opening loop -/

theorem lookupKey_openVanished (date : Int) :
    ∀ (vl : List (String × Scooter)) (u : List (String × Trip)) (id : String),
      (keyList vl).Nodup →
      lookupKey (openVanished date vl u) id =
        match lookupKey vl id with
        | some sc => some (newTrip id sc date)
        | none => lookupKey u id := by
  intro vl
  induction vl with
  | nil => intro u id _; rfl
  | cons p rest ih =>
    intro u id hnd
    obtain ⟨k, sc⟩ := p
    rw [keyList_cons] at hnd
    have hnd' := List.nodup_cons.mp hnd
    show lookupKey (openVanished date rest (insertKey u k (newTrip k sc date))) id =
      match lookupKey ((k, sc) :: rest) id with
      | some sc' => some (newTrip id sc' date)
      | none => lookupKey u id
    rw [ih _ id hnd'.2]
    by_cases hk : k = id
    · subst hk
      have hnone : lookupKey rest k = none :=
        lookupKey_eq_none_of_not_mem rest k hnd'.1
      rw [hnone, lookupKey_insertKey, if_pos rfl]
      simp [lookupKey]
    · have hcons : lookupKey ((k, sc) :: rest) id = lookupKey rest id := by
        simp [lookupKey, hk]
      rw [hcons, lookupKey_insertKey, if_neg hk]

theorem nodup_keyList_differenceKey {α : Type} (s ns : List (String × α))
    (h : (keyList ns).Nodup) : (keyList (differenceKey s ns)).Nodup := by
  unfold differenceKey
  rw [keyList_filterKey (fun k => (lookupKey s k).isNone)]
  exact List.Nodup.filter _ h

theorem aggregateStep_unfinished (hav : HavFun) (st : AggState) (res : ScrapeResult) :
    ((aggregateStep hav st res).1).unfinishedTrips =
      (openVanished res.date (differenceKey (NewScooters res.scooters) st.lastScooters)
        st.unfinishedTrips).filter
        (fun q => (lookupKey (NewScooters res.scooters) q.1).isNone) := by
  show (finalizePass hav (NewScooters res.scooters) res.date _).1 = _
  rw [finalizePass_eq]

/-! ## Claim C6: provenance of a new trip's start fields -/

/-- C6: when a vehicle bound to observation sc in the tracker's
last-scooters map (the previous snapshot) is absent from the snapshot being
processed, the step opens a trip for it whose start charge level and start
location come from sc and whose start time is the processed snapshot's own
timestamp (the time of first confirmed absence). -/
theorem vanished_trip_start_fields (hav : HavFun) (st : AggState) (res : ScrapeResult)
    (id : String) (sc : Scooter)
    (hnd : (keyList st.lastScooters).Nodup)
    (hprev : lookupKey st.lastScooters id = some sc)
    (habs : lookupKey (NewScooters res.scooters) id = none) :
    lookupKey ((aggregateStep hav st res).1).unfinishedTrips id
      = some (newTrip id sc res.date)
    ∧ (newTrip id sc res.date).startChargeLevel = sc.chargeLevel
    ∧ (newTrip id sc res.date).startLocation = sc.location
    ∧ (newTrip id sc res.date).startTime = res.date := by
  refine ⟨?_, rfl, rfl, rfl⟩
  rw [aggregateStep_unfinished,
    lookupKey_filterKey (fun k => (lookupKey (NewScooters res.scooters) k).isNone)]
  have hcond : (lookupKey (NewScooters res.scooters) id).isNone = true := by
    rw [habs]; rfl
  rw [if_pos hcond,
    lookupKey_openVanished res.date _ _ id (nodup_keyList_differenceKey _ _ hnd)]
  have hvan : lookupKey (differenceKey (NewScooters res.scooters) st.lastScooters) id
      = some sc := by
    rw [lookupKey_differenceKey, habs]
    simpa using hprev
  rw [hvan]

/-- Witness for C6 at a concrete state and snapshot: vehicle a, observed
with charge 42 in the previous snapshot, vanishes at time 5. -/
theorem vanished_trip_start_fields_witness :
    lookupKey ((aggregateStep havZero
        { unfinishedTrips := [],
          lastScooters := NewScooters [{ id := "a", chargeLevel := 42 }] }
        { date := 5, scooters := [] }).1).unfinishedTrips "a"
      = some (newTrip "a" { id := "a", chargeLevel := 42 } 5)
    ∧ (newTrip "a" { id := "a", chargeLevel := 42 } 5).startChargeLevel
        = ({ id := "a", chargeLevel := 42 } : Scooter).chargeLevel
    ∧ (newTrip "a" { id := "a", chargeLevel := 42 } 5).startLocation
        = ({ id := "a", chargeLevel := 42 } : Scooter).location
    ∧ (newTrip "a" { id := "a", chargeLevel := 42 } 5).startTime = 5 :=
  vanished_trip_start_fields havZero
    { unfinishedTrips := [],
      lastScooters := NewScooters [{ id := "a", chargeLevel := 42 }] }
    { date := 5, scooters := [] } "a" { id := "a", chargeLevel := 42 }
    (by decide) (by decide) (by decide)

/-! ## Claim C7: feeding the same snapshot twice -/

theorem aggregateStep_stable (hav : HavFun) (st' : AggState) (res : ScrapeResult)
    (hlast : st'.lastScooters = NewScooters res.scooters)
    (hopen : ∀ q ∈ st'.unfinishedTrips,
      lookupKey (NewScooters res.scooters) q.1 = none) :
    aggregateStep hav st' res = (st', []) := by
  have hvan : differenceKey (NewScooters res.scooters) st'.lastScooters = [] := by
    rw [hlast]; exact differenceKey_self _
  show (AggState.mk (finalizePass hav (NewScooters res.scooters) res.date
        (openVanished res.date (differenceKey (NewScooters res.scooters) st'.lastScooters)
          st'.unfinishedTrips)).1 (NewScooters res.scooters),
      (finalizePass hav (NewScooters res.scooters) res.date
        (openVanished res.date (differenceKey (NewScooters res.scooters) st'.lastScooters)
          st'.unfinishedTrips)).2) = (st', [])
  rw [hvan]
  show (AggState.mk (finalizePass hav (NewScooters res.scooters) res.date
        st'.unfinishedTrips).1 (NewScooters res.scooters),
      (finalizePass hav (NewScooters res.scooters) res.date st'.unfinishedTrips).2)
    = (st', [])
  rw [finalizePass_eq]
  have hf : st'.unfinishedTrips.filter
      (fun q => (lookupKey (NewScooters res.scooters) q.1).isNone)
      = st'.unfinishedTrips :=
    List.filter_eq_self.mpr (fun q hq => by rw [hopen q hq]; rfl)
  have hfm : st'.unfinishedTrips.filterMap (fun q =>
      (lookupKey (NewScooters res.scooters) q.1).map
        (fun sc => finalizeTrip hav q.2 sc res.date)) = [] :=
    List.filterMap_eq_nil_iff.mpr (fun q hq => by rw [hopen q hq]; rfl)
  simp only [hf, hfm]
  rw [← hlast]

/-- C7: from any state the tracker reaches from the initial state,
processing a snapshot and then processing the identical snapshot again
opens no trip, finalizes no trip, and leaves the whole tracker state
unchanged on the second feed. -/
theorem tracker_idempotent (hav : HavFun) (l : List ScrapeResult) (res : ScrapeResult) :
    aggregateStep hav (aggregateStep hav (aggregateRun hav initialAggState l).1 res).1 res
      = ((aggregateStep hav (aggregateRun hav initialAggState l).1 res).1, []) := by
  apply aggregateStep_stable
  · rfl
  · intro q hq
    rw [aggregateStep_unfinished] at hq
    exact Option.isNone_iff_eq_none.mp (List.mem_filter.mp hq).2

/-! ## Claim C8: determinism of the pipeline output -/

theorem insertKey_perm {α : Type} {m1 m2 : List (String × α)} (k : String) (v : α)
    (h : m1.Perm m2) : (insertKey m1 k v).Perm (insertKey m2 k v) := by
  unfold insertKey eraseKey
  exact List.Perm.cons _ (h.filter _)

theorem openVanished_perm (date : Int) :
    ∀ (vl : List (String × Scooter)) {u1 u2 : List (String × Trip)},
      u1.Perm u2 → (openVanished date vl u1).Perm (openVanished date vl u2) := by
  intro vl
  induction vl with
  | nil => intro u1 u2 h; exact h
  | cons p rest ih =>
    intro u1 u2 h
    obtain ⟨k, sc⟩ := p
    exact ih (insertKey_perm _ _ h)

theorem stepRel_out_perm (hav : HavFun) {st1 st2 : AggState} {res : ScrapeResult}
    {st1' st2' : AggState} {o1 o2 : List Trip}
    (hu : st1.unfinishedTrips.Perm st2.unfinishedTrips)
    (hl : st1.lastScooters = st2.lastScooters)
    (h1 : StepRel hav st1 res st1' o1) (h2 : StepRel hav st2 res st2' o2) :
    o1.Perm o2 ∧ st1'.unfinishedTrips.Perm st2'.unfinishedTrips
      ∧ st1'.lastScooters = st2'.lastScooters := by
  obtain ⟨ul1, hp1, hst1, ho1⟩ := h1
  obtain ⟨ul2, hp2, hst2, ho2⟩ := h2
  have hopen : (openVanished res.date
      (differenceKey (NewScooters res.scooters) st1.lastScooters)
      st1.unfinishedTrips).Perm
      (openVanished res.date
        (differenceKey (NewScooters res.scooters) st2.lastScooters)
        st2.unfinishedTrips) := by
    rw [hl]
    exact openVanished_perm res.date _ hu
  have hul : ul1.Perm ul2 := hp1.trans (hopen.trans hp2.symm)
  have e1 : ∀ ul : List (String × Trip),
      (finalizePass hav (NewScooters res.scooters) res.date ul).1
        = ul.filter (fun q => (lookupKey (NewScooters res.scooters) q.1).isNone) := by
    intro ul; rw [finalizePass_eq]
  have e2 : ∀ ul : List (String × Trip),
      (finalizePass hav (NewScooters res.scooters) res.date ul).2
        = ul.filterMap (fun q => (lookupKey (NewScooters res.scooters) q.1).map
            (fun sc => finalizeTrip hav q.2 sc res.date)) := by
    intro ul; rw [finalizePass_eq]
  subst hst1 hst2 ho1 ho2
  refine ⟨?_, ?_, rfl⟩
  · rw [e2, e2]
    exact hul.filterMap _
  · show ((finalizePass hav (NewScooters res.scooters) res.date ul1).1).Perm
      ((finalizePass hav (NewScooters res.scooters) res.date ul2).1)
    rw [e1, e1]
    exact hul.filter _

theorem runRel_out_perm (hav : HavFun) :
    ∀ (l : List ScrapeResult) (st1 st2 : AggState) (o1 o2 : List Trip),
      st1.unfinishedTrips.Perm st2.unfinishedTrips →
      st1.lastScooters = st2.lastScooters →
      RunRel hav st1 l o1 → RunRel hav st2 l o2 → o1.Perm o2 := by
  intro l
  induction l with
  | nil =>
    intro st1 st2 o1 o2 _ _ h1 h2
    cases h1
    cases h2
    exact List.Perm.refl _
  | cons r rs ih =>
    intro st1 st2 o1 o2 hu hl h1 h2
    cases h1 with
    | cons hs1 hr1 =>
      cases h2 with
      | cons hs2 hr2 =>
        obtain ⟨ho, hu', hl'⟩ := stepRel_out_perm hav hu hl hs1 hs2
        exact ho.append (ih _ _ _ _ hu' hl' hr1 hr2)

theorem runRel_canonical (hav : HavFun) : ∀ (l : List ScrapeResult) (st : AggState),
    RunRel hav st l (aggregateRun hav st l).2 := by
  intro l
  induction l with
  | nil => intro st; exact RunRel.nil st
  | cons r rs ih =>
    intro st
    show RunRel hav st (r :: rs)
      ((aggregateStep hav st r).2 ++ (aggregateRun hav (aggregateStep hav st r).1 rs).2)
    exact RunRel.cons ⟨_, List.Perm.refl _, rfl, rfl⟩ (ih _)

/-- Counterexample to C8 as stated: over the same three-snapshot input, in
which two vehicles finalize during the same step, two runs of the tracker
that differ only in the (unspecified, runtime-randomized) Go map iteration
order of the finalization loop emit the same two trips in different
orders; the classified outputs differ item for item as sequences. -/
theorem classifyTrip_scooterID (t : Trip) : (classifyTrip t).scooterID = t.scooterID := by
  unfold classifyTrip
  split_ifs <;> rfl

theorem pipeline_two_emission_orders :
    RunRel havZero initialAggState c8Input c8Out1
    ∧ RunRel havZero initialAggState c8Input c8Out2
    ∧ c8Out1 ≠ c8Out2
    ∧ classifyStream c8Out1 ≠ classifyStream c8Out2 := by
  refine ⟨runRel_canonical havZero c8Input initialAggState, ?_, by decide, ?_⟩
  · have h : c8Out2 = [] ++ ([] ++
        ((finalizePass havZero (NewScooters c8S3.scooters) c8S3.date c8UlSwap).2 ++ [])) := by
      rfl
    rw [h]
    refine RunRel.cons ⟨_, List.Perm.refl _, rfl, rfl⟩ ?_
    refine RunRel.cons ⟨_, List.Perm.refl _, rfl, rfl⟩ ?_
    refine RunRel.cons ⟨c8UlSwap, ?_, rfl, rfl⟩ (RunRel.nil _)
    decide
  · intro h
    have h2 := congrArg (List.map Trip.scooterID) h
    rw [classifyStream, classifyStream, List.map_map, List.map_map] at h2
    have h3 : c8Out1.map Trip.scooterID = c8Out2.map Trip.scooterID := by
      have he : (Trip.scooterID ∘ classifyTrip) = Trip.scooterID := by
        funext t
        exact classifyTrip_scooterID t
      rw [he] at h2
      exact h2
    rw [show c8Out1.map Trip.scooterID = ["a", "b"] from by decide,
      show c8Out2.map Trip.scooterID = ["b", "a"] from by decide] at h3
    exact absurd h3 (by decide)

/-- C8 as amended: the Tracker-plus-Classifier pipeline is deterministic up
to the emission order within a single step: any two runs over the same
snapshot sequence emit the same finalized trips and the same classified
trips as multisets (and hence identical sequences whenever at most one trip
finalizes per step). -/
theorem pipeline_deterministic_up_to_step_order (hav : HavFun) (l : List ScrapeResult)
    (out1 out2 : List Trip)
    (h1 : RunRel hav initialAggState l out1) (h2 : RunRel hav initialAggState l out2) :
    out1.Perm out2 ∧ (classifyStream out1).Perm (classifyStream out2) := by
  have h := runRel_out_perm hav l initialAggState initialAggState out1 out2
    (List.Perm.refl _) rfl h1 h2
  exact ⟨h, h.map _⟩

/-- Witness for C8 as amended: two (canonical) runs over the concrete
two-vehicle input; their outputs are permutations of each other. -/
theorem pipeline_deterministic_witness :
    ((aggregateRun havZero initialAggState c8Input).2).Perm
      ((aggregateRun havZero initialAggState c8Input).2)
    ∧ (classifyStream (aggregateRun havZero initialAggState c8Input).2).Perm
      (classifyStream (aggregateRun havZero initialAggState c8Input).2) :=
  pipeline_deterministic_up_to_step_order havZero c8Input _ _
    (runRel_canonical havZero c8Input initialAggState)
    (runRel_canonical havZero c8Input initialAggState)

/-! ## Claim C9: the fetch retry loop -/

theorem doScrapeLoop_401_loginOk (fuel : ℕ) :
    ∀ (fi li r : ℕ),
      doScrapeLoop always401 alwaysLoginOk fuel fi li r 0 false = ScrapeExit.fuelOut := by
  induction fuel with
  | zero => intro fi li r; rfl
  | succ n ih =>
    intro fi li r
    show (if r < 5 ∨ (false : Bool) = false then _ else _) = _
    rw [if_pos (Or.inr rfl)]
    show (if (400 : Int) ≤ 401 ∧ (401 : Int) < 500 then _ else _) = _
    rw [if_pos (by norm_num)]
    show (if 5 ≤ (authLoop alwaysLoginOk (5 - 0) li 0).2 then _ else _) = _
    have ha : authLoop alwaysLoginOk (5 - 0) li 0 = (li + 1, 0) := rfl
    rw [ha]
    rw [if_neg (by norm_num)]
    exact ih (fi + 1) (li + 1) (r + 1)

/-- Counterexample to C9 as stated: when every fetch fails with HTTP 401
and every re-authentication succeeds, doScrape never terminates — success
is never reached, the auth budget is never exhausted, and the loop
condition retryCounter less than 5 or not success stays true forever, so
the number of request attempts is unbounded rather than bounded. -/
theorem doScrape_unbounded_attempts : DoScrapeDiverges always401 alwaysLoginOk :=
  fun fuel => doScrapeLoop_401_loginOk fuel 0 0 0

/-- C9 as amended: on homogeneous failure streams the loop is bounded and
fatal as the claim describes — a stream of unclassified errors is fatal
after exactly 3 request attempts (the retry counter is incremented twice
per iteration); a 4xx stream whose re-authentications all fail is fatal
after the first attempt with the auth budget exhausted; and an all-success
stream terminates after exactly 5 attempts (the loop keeps re-fetching
until the retry counter reaches 5 even after a success).  The boundedness
claim fails only in the re-authentication-succeeds regime of the
counterexample. -/
theorem doScrape_bounded_on_homogeneous_streams :
    doScrape alwaysOtherErr alwaysLoginOk 100 = ScrapeExit.fatalRetries 3
    ∧ doScrape alwaysOk alwaysLoginOk 100 = ScrapeExit.success 5
    ∧ doScrape always401 alwaysLoginFail 100 = ScrapeExit.fatalAuth 1 := by
  refine ⟨?_, ?_, ?_⟩ <;> rfl
